import Mathlib

/-!
Verification of the console-game-engine frame update cycle.

The definitions below are a shallow embedding of
src/console_game_engine/__init__.py.  Python machine model used here:

* Python strings become Lean String; the Python membership test
  needle in hay on strings is substring containment, embedded as pyInStr.
* Python ints are unbounded, embedded as Int.
* Python list indexing l[i] accepts negative indices (wrapping from the
  end) and raises IndexError otherwise; embedded as pyGetItem and
  pySetItem returning Option, where none means IndexError.
* A raising call is modelled by an Option result or an explicit ok flag
  carrying the state mutated so far.
-/

/-- Whether the pattern list is an initial segment of the text list
(helper for the Python substring test). -/
def strLeadMatch : List Char → List Char → Bool
  | [], _ => true
  | _ :: _, [] => false
  | a :: as, b :: bs => a == b && strLeadMatch as bs

/-- Whether the pattern occurs as a contiguous run inside the text
(helper for the Python substring test). -/
def strSubAt (n : List Char) : List Char → Bool
  | [] => n.isEmpty
  | c :: t => strLeadMatch n (c :: t) || strSubAt n t

/-- Embedding of the Python string membership test: needle in hay is
substring containment. -/
def pyInStr (needle hay : String) : Bool :=
  strSubAt needle.data hay.data

/-- Embedding of Python list read l[i]: non-negative indices in range,
negative indices wrap from the end, anything else is IndexError (none). -/
def pyGetItem (l : List α) (i : Int) : Option α :=
  if 0 ≤ i ∧ i < (l.length : Int) then l[i.toNat]?
  else if -(l.length : Int) ≤ i ∧ i < 0 then l[((l.length : Int) + i).toNat]?
  else none

/-- Embedding of Python list item assignment l[i] = a, with the same
index rules as pyGetItem; none means IndexError. -/
def pySetItem (l : List α) (i : Int) (a : α) : Option (List α) :=
  if 0 ≤ i ∧ i < (l.length : Int) then some (l.set i.toNat a)
  else if -(l.length : Int) ≤ i ∧ i < 0 then some (l.set ((l.length : Int) + i).toNat a)
  else none

/-- Embedding of the _Player entity (class _Player in the source).
Field order follows the assignments in the Python constructor; pos is
(pos[0], pos[1]).  The movement code shows pos[0] is the column
(left and right change it) and pos[1] is the row (up and down change
it, and it indexes the outer board list in the redraw). -/
structure PlayerV where
  char : String
  pos : Int × Int
  left : String
  right : String
  up : String
  down : String
  deriving DecidableEq, Repr

/-- Embedding of _DynamicEntity._change_position(x, y): adds x to
pos[0] and y to pos[1], in place. -/
def movePlayer (p : PlayerV) (x y : Int) : PlayerV :=
  { p with pos := (p.pos.1 + x, p.pos.2 + y) }

/-- Embedding of _Player.change_position(key): checks the key against
the four key-set strings in the source order left, right, up, down
(Python substring membership), applies the first matching delta and
returns 0, or returns -1 with the position untouched. -/
def changePosition (p : PlayerV) (key : String) : PlayerV × Int :=
  if pyInStr key p.left then (movePlayer p (-1) 0, 0)
  else if pyInStr key p.right then (movePlayer p 1 0, 0)
  else if pyInStr key p.up then (movePlayer p 0 (-1), 0)
  else if pyInStr key p.down then (movePlayer p 0 1, 0)
  else (p, -1)

/-- Embedding of the _Board object state: board is the working grid,
x = len(board) - 1 and y = len(board[0]) - 1 at construction time, and
copy is the deepcopy baseline snapshot (at value level a deep copy is
the same value). -/
structure BoardV where
  board : List (List String)
  x : Int
  y : Int
  copy : List (List String)
  deriving DecidableEq, Repr

/-- Embedding of _Board.__init__(board).  The only operation that can
raise is board[0] on an empty list (IndexError); there is no
rectangularity check anywhere in the constructor. -/
def mkBoardV : List (List String) → Option BoardV
  | [] => none
  | r :: rs =>
    some { board := r :: rs
           x := ((r :: rs).length : Int) - 1
           y := (r.length : Int) - 1
           copy := r :: rs }

/-- Embedding of the IndexError-protection block of
ConsoleGame._update_and_display_board for one player: boardX is
self.board.x, boardY is self.board.y, player_x is pos[1] and player_y
is pos[0], exactly as in the source.  The four checks are mutually
exclusive elif branches in the source order: pos[1] high, pos[0] high,
pos[1] low, pos[0] low. -/
def clampPos (boardX boardY : Int) (pos : Int × Int) : Int × Int :=
  let player_x := pos.2
  let player_y := pos.1
  if player_x > boardX then
    let diff_x := player_x - boardX
    (player_y, player_x - diff_x)
  else if player_y > boardY then
    let diff_y := player_y - boardY
    (player_y - diff_y, player_x)
  else if player_x < 0 then
    (player_y, 0)
  else if player_y < 0 then
    (0, player_x)
  else
    pos

/-- Embedding of the write self.board.board[player_x][player_y] =
player.char: read row player_x, assign column player_y in it, store the
row back.  none means IndexError. -/
def writeCell (g : List (List String)) (outer inner : Int) (ch : String) :
    Option (List (List String)) :=
  match pyGetItem g outer with
  | none => none
  | some row =>
    match pySetItem row inner ch with
    | none => none
    | some row2 => pySetItem g outer row2

/-- Embedding of the player loop of ConsoleGame._update_and_display_board:
clamp each player position (persisted onto the player), then write its
glyph at board[pos[1]][pos[0]].  Returns the player list (with every
clamp that was reached applied), the grid as written so far, and an ok
flag; ok = false means the write raised IndexError, in which case the
remaining players are left untouched. -/
def displayPlayers (boardX boardY : Int) :
    List (List String) → List PlayerV →
    List PlayerV × List (List String) × Bool
  | g, [] => ([], g, true)
  | g, p :: ps =>
    let p2 := { p with pos := clampPos boardX boardY p.pos }
    match writeCell g p2.pos.2 p2.pos.1 p2.char with
    | none => (p2 :: ps, g, false)
    | some g2 =>
      let r := displayPlayers boardX boardY g2 ps
      (p2 :: r.1, r.2.1, r.2.2)

/-- Embedding of the ConsoleGame state.  The fields smart_updating
through active are the attributes assigned by ConsoleGame.initialize
(and _active from __init__); hooks are opaque Option Unit values. -/
structure GameState where
  board : BoardV
  players : List PlayerV
  smart_updating : Bool
  interval_updating : Bool
  interval : Nat
  pending_update : Bool
  preupdate : Option Unit
  postupdate : Option Unit
  on_key : Option Unit
  delay : Int
  active : Bool
  deriving DecidableEq, Repr

/-- Embedding of ConsoleGame._update_and_display_board: restore the
working grid from the baseline copy, then run the player loop.  The
returned flag is false when the board write raised IndexError (the
state then carries every mutation made before the raise). -/
def updateAndDisplay (g : GameState) : GameState × Bool :=
  let fresh := g.board.copy
  let r := displayPlayers g.board.x g.board.y fresh g.players
  ({ g with board := { g.board with board := r.2.1 }, players := r.1 }, r.2.2)

/-- Embedding of ConsoleGame.initialize (that exact method name is
reserved here): records the two mode flags, fixes interval to 1 (the
method has no parameter for it), sets the pending-update flag to True,
stores the hooks and delay, and activates the game. -/
def initGame (g : GameState) (smart intervalMode : Bool)
    (pre post onKey : Option Unit) (d : Int) : GameState :=
  { g with
    smart_updating := smart
    interval_updating := intervalMode
    interval := 1
    pending_update := true
    preupdate := pre
    postupdate := post
    on_key := onKey
    delay := d
    active := true }

/-- Embedding of ConsoleGame.change_player_position(player, key): run
the movement resolution, then unconditionally set the pending-update
flag, and return the resolution result. -/
def changePlayerPosition (g : GameState) (p : PlayerV) (key : String) :
    GameState × PlayerV × Int :=
  let r := changePosition p key
  ({ g with pending_update := true }, r.1, r.2)

/-- Embedding of the board-updating section of one iteration of
ConsoleGame.start: smart mode redraws when the pending flag is set and
clears it right after; interval mode redraws when iteration mod
interval is 0; otherwise every iteration redraws.  none models an
IndexError escaping from the redraw (the loop dies). -/
def loopStep (g : GameState) (iteration : Nat) : Option (Bool × GameState) :=
  if g.smart_updating then
    if g.pending_update then
      let r := updateAndDisplay g
      if r.2 then some (true, { r.1 with pending_update := false }) else none
    else some (false, g)
  else if g.interval_updating then
    if iteration % g.interval == 0 then
      let r := updateAndDisplay g
      if r.2 then some (true, r.1) else none
    else some (false, g)
  else
    let r := updateAndDisplay g
    if r.2 then some (true, r.1) else none

/-- A grid is rectangular with the given height and width. -/
def rectGrid (g : List (List String)) (hgt wid : Nat) : Prop :=
  g.length = hgt ∧ ∀ row ∈ g, row.length = wid

/-- A position is out of bounds on at most one axis: the column
(pos[0]) is within 0..boardY or the row (pos[1]) is within 0..boardX. -/
def atMostOneOOB (boardX boardY : Int) (pos : Int × Int) : Prop :=
  (0 ≤ pos.1 ∧ pos.1 ≤ boardY) ∨ (0 ≤ pos.2 ∧ pos.2 ≤ boardX)

/-- First-match lookup over an ordered association list of key-set
strings and movement deltas, using the Python substring membership
test; used to state order-of-checks properties about change_position. -/
def firstKeyMatch (key : String) : List (String × (Int × Int)) → Option (Int × Int)
  | [] => none
  | (ks, d) :: rest => if pyInStr key ks then some d else firstKeyMatch key rest

/-- Modelled from the claim wording for C4: movement resolution that
checks the key-sets in the order up, left, down, right and applies the
first matching delta (deltas as in the source: up (0,-1), left (-1,0),
down (0,1), right (1,0)). -/
def claimC4apply (p : PlayerV) (key : String) : PlayerV × Int :=
  match firstKeyMatch key
      [(p.up, (0, -1)), (p.left, (-1, 0)), (p.down, (0, 1)), (p.right, (1, 0))] with
  | some d => (movePlayer p d.1 d.2, 0)
  | none => (p, -1)

/-- The amended movement resolution for C4: first match over the
source order left, right, up, down. -/
def codeC4apply (p : PlayerV) (key : String) : PlayerV × Int :=
  match firstKeyMatch key
      [(p.left, (-1, 0)), (p.right, (1, 0)), (p.up, (0, -1)), (p.down, (0, 1))] with
  | some d => (movePlayer p d.1 d.2, 0)
  | none => (p, -1)

/-- Modelled from the claim wording for C3: clamp with checks in the
order column-high, row-high, column-low, row-low, where the column is
pos[0] (bounded by boardY = maxCol) and the row is pos[1] (bounded by
boardX = maxRow). -/
def clampSpecC3 (boardX boardY : Int) (pos : Int × Int) : Int × Int :=
  if pos.1 > boardY then (pos.1 - (pos.1 - boardY), pos.2)
  else if pos.2 > boardX then (pos.1, pos.2 - (pos.2 - boardX))
  else if pos.1 < 0 then (0, pos.2)
  else if pos.2 < 0 then (pos.1, 0)
  else pos

/-!
Heap-level embedding of _Board, used for the deep-copy claims.  Row
objects live in a heap (a list of row values addressed by Nat
references) and a grid is a list of row references; copy.deepcopy
allocates fresh cells at the end of the heap holding copies of the row
values.  Mutating a row through one reference then leaves every other
reference untouched, which makes the aliasing claim statable.
-/

namespace HeapModel

/-- The value of a row object. -/
abbrev RowV := List String

/-- The heap of row objects. -/
abbrev HeapT := List RowV

/-- A grid: a list of references to row objects. -/
abbrev GridRefs := List Nat

/-- Dereference one row (out-of-heap references read as the empty row;
the theorems only use valid references). -/
def getRow (h : HeapT) (r : Nat) : RowV :=
  (h[r]?).getD []

/-- Read a whole grid out of the heap as row values. -/
def readG (h : HeapT) (g : GridRefs) : List RowV :=
  g.map (getRow h)

/-- Embedding of copy.deepcopy on a grid: allocate one fresh cell per
row, each holding a copy of that row value, and return references to
the fresh cells. -/
def deepcopyG (h : HeapT) (g : GridRefs) : HeapT × GridRefs :=
  (h ++ readG h g, (List.range g.length).map (fun i => h.length + i))

/-- Heap-level _Board state: boardRefs is self.board (the grid the
caller passed in), copyRefs is self._copy (the deepcopy baseline). -/
structure BoardH where
  boardRefs : GridRefs
  x : Int
  y : Int
  copyRefs : GridRefs
  deriving DecidableEq, Repr

/-- Heap-level embedding of _Board.__init__: stores the grid, computes
x and y from it (board[0] raises IndexError on an empty grid, hence
the Option), and deep-copies the grid into _copy. -/
def mkBoardH (h : HeapT) (b : GridRefs) : Option (HeapT × BoardH) :=
  match b with
  | [] => none
  | r0 :: rest =>
    let r := deepcopyG h (r0 :: rest)
    some (r.1,
      { boardRefs := r0 :: rest
        x := ((r0 :: rest).length : Int) - 1
        y := ((getRow h r0).length : Int) - 1
        copyRefs := r.2 })

/-- Embedding of _Board._original: a deepcopy of the baseline. -/
def originalG (h : HeapT) (bd : BoardH) : HeapT × GridRefs :=
  deepcopyG h bd.copyRefs

/-- Embedding of _Board.__str__ on row values: each row joined with no
separator and followed by a newline. -/
def renderRows (rows : List RowV) : String :=
  rows.foldl (fun acc row => acc ++ String.join row ++ "\n") ""

/-- Render a grid of references through the heap. -/
def renderH (h : HeapT) (g : GridRefs) : String :=
  renderRows (readG h g)

/-- Mutate the row object behind one reference (the model of writing
through an alias into a grid the caller holds). -/
def setRow (h : HeapT) (r : Nat) (v : RowV) : HeapT :=
  h.set r v

end HeapModel

/-- A player with the default key-set strings of ConsoleGame.add_player. -/
def mkPlayer (pos : Int × Int) : PlayerV :=
  { char := "P", pos := pos, left := "left", right := "right", up := "up", down := "down" }

/-- A concrete 2 by 2 board state as built by _Board.__init__. -/
def boardTwo : BoardV :=
  { board := [["a", "b"], ["c", "d"]], x := 1, y := 1, copy := [["a", "b"], ["c", "d"]] }

/-- A concrete 1 by 1 board state as built by _Board.__init__. -/
def boardOne : BoardV :=
  { board := [["a"]], x := 0, y := 0, copy := [["a"]] }

/-- A concrete game state around a given board and player list. -/
def mkTestGame (bd : BoardV) (ps : List PlayerV) (smart pending : Bool) : GameState :=
  { board := bd, players := ps, smart_updating := smart, interval_updating := false,
    interval := 1, pending_update := pending, preupdate := none, postupdate := none,
    on_key := none, delay := 0, active := true }

/-- Game with one player out of bounds on both axes, the second axis
negative (the redraw completes but leaves the position out of bounds). -/
def gameBothOOB : GameState := mkTestGame boardTwo [mkPlayer (-1, 2)] false false

/-- Game with one player out of bounds high on both axes (the redraw
raises IndexError on the board write). -/
def gameBothHigh : GameState := mkTestGame boardTwo [mkPlayer (2, 2)] false false

/-- Game with one player out of bounds on the column axis only. -/
def gameOneAxis : GameState := mkTestGame boardTwo [mkPlayer (2, 0)] false false

/-- Smart-updating game with the pending flag set and no players. -/
def smartGame : GameState := mkTestGame boardOne [] true true

/-- A player whose up and right key-sets share the symbol x. -/
def playerC4 : PlayerV :=
  { char := "@", pos := (0, 0), left := "a", right := "x", up := "x", down := "b" }

instance (g : List (List String)) (hgt wid : Nat) : Decidable (rectGrid g hgt wid) := by
  unfold rectGrid; infer_instance

instance (boardX boardY : Int) (pos : Int × Int) :
    Decidable (atMostOneOOB boardX boardY pos) := by
  unfold atMostOneOOB; infer_instance

/-- The clamp sends a position that is out of bounds on at most one
axis to a fully in-bounds position. -/
theorem clampPos_inBounds (boardX boardY : Int) (hX : 0 ≤ boardX) (hY : 0 ≤ boardY)
    {pos : Int × Int} (hone : atMostOneOOB boardX boardY pos) :
    0 ≤ (clampPos boardX boardY pos).1 ∧ (clampPos boardX boardY pos).1 ≤ boardY ∧
    0 ≤ (clampPos boardX boardY pos).2 ∧ (clampPos boardX boardY pos).2 ≤ boardX := by
  obtain ⟨p0, p1⟩ := pos
  simp only [clampPos, atMostOneOOB] at *
  split_ifs <;> simp_all <;> omega

/-- Writing a glyph at an in-bounds cell of a rectangular grid
succeeds and preserves rectangularity. -/
theorem writeCell_rect {g : List (List String)} {hgt wid : Nat}
    (hg : rectGrid g hgt wid) (r c : Int) (hr0 : 0 ≤ r) (hr1 : r < (hgt : Int))
    (hc0 : 0 ≤ c) (hc1 : c < (wid : Int)) (ch : String) :
    ∃ g2, writeCell g r c ch = some g2 ∧ rectGrid g2 hgt wid := by
  obtain ⟨hlen, hrow⟩ := hg
  have hrn : r.toNat < g.length := by omega
  have hrowmem : g[r.toNat] ∈ g := List.getElem_mem hrn
  have hwid : (g[r.toNat]).length = wid := hrow _ hrowmem
  have h1 : pyGetItem g r = some g[r.toNat] := by
    unfold pyGetItem
    rw [if_pos ⟨hr0, by omega⟩]
    exact List.getElem?_eq_getElem hrn
  have h2 : pySetItem g[r.toNat] c ch = some ((g[r.toNat]).set c.toNat ch) := by
    unfold pySetItem
    rw [if_pos ⟨hc0, by omega⟩]
  have h3 : pySetItem g r ((g[r.toNat]).set c.toNat ch)
      = some (g.set r.toNat ((g[r.toNat]).set c.toNat ch)) := by
    unfold pySetItem
    rw [if_pos ⟨hr0, by omega⟩]
  refine ⟨g.set r.toNat ((g[r.toNat]).set c.toNat ch), ?_, ?_, ?_⟩
  · simp [writeCell, h1, h2, h3]
  · simp [hlen]
  · intro row hmem
    rcases List.mem_or_eq_of_mem_set hmem with h | h
    · exact hrow _ h
    · subst h; simp [hwid]

/-- When every player is out of bounds on at most one axis and the
working grid is rectangular and matches the stored bounds, the player
loop clamps every player in place, completes without raising, and
keeps the grid rectangular. -/
theorem displayPlayers_sound {boardX boardY : Int} {hgt wid : Nat}
    (hX : (hgt : Int) = boardX + 1) (hY : (wid : Int) = boardY + 1)
    (hh : 0 < hgt) (hw : 0 < wid) :
    ∀ (ps : List PlayerV) (g : List (List String)), rectGrid g hgt wid →
    (∀ p ∈ ps, atMostOneOOB boardX boardY p.pos) →
    (displayPlayers boardX boardY g ps).1
        = ps.map (fun p => { p with pos := clampPos boardX boardY p.pos }) ∧
    (displayPlayers boardX boardY g ps).2.2 = true ∧
    rectGrid (displayPlayers boardX boardY g ps).2.1 hgt wid := by
  intro ps
  induction ps with
  | nil =>
    intro g hg _
    exact ⟨rfl, rfl, hg⟩
  | cons p ps ih =>
    intro g hg hall
    have hXpos : 0 ≤ boardX := by omega
    have hYpos : 0 ≤ boardY := by omega
    have hcl := clampPos_inBounds boardX boardY hXpos hYpos (hall p (List.mem_cons_self p ps))
    obtain ⟨g2, hw2, hrect2⟩ :=
      writeCell_rect hg (clampPos boardX boardY p.pos).2 (clampPos boardX boardY p.pos).1
        (by omega) (by omega) (by omega) (by omega) p.char
    have hrest := ih g2 hrect2 (fun q hq => hall q (List.mem_cons_of_mem p hq))
    simp only [displayPlayers, hw2]
    exact ⟨by rw [hrest.1, List.map_cons], hrest.2.1, hrest.2.2⟩

/-- Claim C1, counterexample: a player stored at (col, row) = (-1, 2)
on a 2 by 2 board (maxCol = maxRow = 1) is out of bounds on both axes;
the redraw completes (the negative column wraps in the Python board
write), yet the stored position afterwards is (-1, 1), whose column
still violates 0 <= col. -/
theorem claim1_cex :
    gameBothOOB.players.map PlayerV.pos = [(-1, 2)] ∧
    (updateAndDisplay gameBothOOB).2 = true ∧
    (updateAndDisplay gameBothOOB).1.players.map PlayerV.pos = [(-1, 1)] ∧
    ((-1 : Int), (1 : Int)).1 < 0 := by
  refine ⟨rfl, rfl, rfl, by decide⟩

/-- Claim C1, amended: for every player whose stored position is out
of bounds on at most one axis, after one redraw the stored position
satisfies 0 <= col <= maxCol and 0 <= row <= maxRow; a player out of
bounds on both axes only gets the first axis in priority order
corrected and can remain out of bounds. -/
theorem claim1_amended (g : GameState) (hgt wid : Nat)
    (hrect : rectGrid g.board.copy hgt wid) (hh : 0 < hgt) (hw : 0 < wid)
    (hx : (hgt : Int) = g.board.x + 1) (hy : (wid : Int) = g.board.y + 1)
    (hps : ∀ p ∈ g.players, atMostOneOOB g.board.x g.board.y p.pos) :
    ∀ p2 ∈ (updateAndDisplay g).1.players,
      0 ≤ p2.pos.1 ∧ p2.pos.1 ≤ g.board.y ∧ 0 ≤ p2.pos.2 ∧ p2.pos.2 ≤ g.board.x := by
  intro p2 hp2
  have hd := displayPlayers_sound hx hy hh hw g.players g.board.copy hrect hps
  have heq : (updateAndDisplay g).1.players
      = (displayPlayers g.board.x g.board.y g.board.copy g.players).1 := rfl
  rw [heq, hd.1] at hp2
  obtain ⟨p, hp, rfl⟩ := List.mem_map.mp hp2
  have hc := clampPos_inBounds g.board.x g.board.y (by omega) (by omega) (hps p hp)
  simpa using hc

/-- Claim C1, witness: on a 2 by 2 board a player at (2, 0), out of
bounds on the column axis only, ends the redraw at (1, 0), in bounds
on both axes. -/
theorem claim1_witness :
    gameOneAxis.board.x = 1 ∧ gameOneAxis.players.map PlayerV.pos = [(2, 0)] ∧
    (0 ≤ (mkPlayer (1, 0)).pos.1 ∧ (mkPlayer (1, 0)).pos.1 ≤ gameOneAxis.board.y ∧
     0 ≤ (mkPlayer (1, 0)).pos.2 ∧ (mkPlayer (1, 0)).pos.2 ≤ gameOneAxis.board.x) := by
  have H := claim1_amended gameOneAxis 2 2
    (by decide) (by decide) (by decide) (by decide) (by decide) (by decide)
  exact ⟨rfl, rfl, H (mkPlayer (1, 0)) (by decide)⟩

/-- Claim C2, counterexample: a player stored at (2, 2) on a 2 by 2
board is out of bounds high on both axes; only the row is corrected,
and the board write then raises IndexError (ok flag false), so the
redraw does not complete for every position. -/
theorem claim2_cex :
    gameBothHigh.players.map PlayerV.pos = [(2, 2)] ∧
    gameBothHigh.board.x = 1 ∧ gameBothHigh.board.y = 1 ∧
    (updateAndDisplay gameBothHigh).2 = false := by
  refine ⟨rfl, rfl, rfl, rfl⟩

/-- Claim C2, amended: a redraw completes without raising and silently
corrects every position per the clamp policy whenever each player is
out of bounds on at most one axis; a player out of bounds on both axes
can make the board write raise IndexError. -/
theorem claim2_amended (g : GameState) (hgt wid : Nat)
    (hrect : rectGrid g.board.copy hgt wid) (hh : 0 < hgt) (hw : 0 < wid)
    (hx : (hgt : Int) = g.board.x + 1) (hy : (wid : Int) = g.board.y + 1)
    (hps : ∀ p ∈ g.players, atMostOneOOB g.board.x g.board.y p.pos) :
    (updateAndDisplay g).2 = true ∧
    (updateAndDisplay g).1.players
      = g.players.map (fun p => { p with pos := clampPos g.board.x g.board.y p.pos }) := by
  have hd := displayPlayers_sound hx hy hh hw g.players g.board.copy hrect hps
  exact ⟨hd.2.1, hd.1⟩

/-- Claim C2, witness: the one-axis-out-of-bounds game redraws without
raising and persists the clamped position. -/
theorem claim2_witness :
    gameOneAxis.board.x = 1 ∧
    (updateAndDisplay gameOneAxis).2 = true ∧
    (updateAndDisplay gameOneAxis).1.players = [mkPlayer (1, 0)] := by
  have H := claim2_amended gameOneAxis 2 2
    (by decide) (by decide) (by decide) (by decide) (by decide) (by decide)
  exact ⟨rfl, H.1, by rw [H.2]; rfl⟩

/-- Claim C3, counterexample: at maxRow = maxCol = 1 and a stored
position (col, row) = (2, 2), the clamp of the source corrects the row
(result (2, 1)) while a clamp following the claimed order column-high
first would correct the column (result (1, 2)); the claimed check
order column-high, row-high, column-low, row-low is not the code order. -/
theorem claim3_cex :
    clampSpecC3 1 1 (2, 2) = (1, 2) ∧
    clampPos 1 1 (2, 2) = (2, 1) ∧
    clampPos 1 1 (2, 2) ≠ clampSpecC3 1 1 (2, 2) := by
  refine ⟨rfl, rfl, by decide⟩

/-- Claim C3, amended: the clamp checks are mutually exclusive elif
branches evaluated in the fixed order row-high, column-high, row-low,
column-low; a coordinate exceeding its maximum is corrected by
subtracting the overflow so it lands exactly on the maximum, a
negative coordinate reached by its branch is pinned exactly to 0, at
most one axis is corrected per redraw, and the corrected coordinate is
written back onto the stored player position. -/
theorem claim3_amended :
    (∀ boardX boardY : Int, ∀ pos : Int × Int,
      (pos.2 > boardX → clampPos boardX boardY pos = (pos.1, boardX)) ∧
      (¬pos.2 > boardX → pos.1 > boardY → clampPos boardX boardY pos = (boardY, pos.2)) ∧
      (¬pos.2 > boardX → ¬pos.1 > boardY → pos.2 < 0 →
        clampPos boardX boardY pos = (pos.1, 0)) ∧
      (¬pos.2 > boardX → ¬pos.1 > boardY → ¬pos.2 < 0 → pos.1 < 0 →
        clampPos boardX boardY pos = (0, pos.2)) ∧
      (¬pos.2 > boardX → ¬pos.1 > boardY → ¬pos.2 < 0 → ¬pos.1 < 0 →
        clampPos boardX boardY pos = pos) ∧
      ((clampPos boardX boardY pos).1 = pos.1 ∨ (clampPos boardX boardY pos).2 = pos.2)) ∧
    (∀ (boardX boardY : Int) (g : List (List String)) (p : PlayerV) (ps : List PlayerV),
      ((displayPlayers boardX boardY g (p :: ps)).1).head?
        = some { p with pos := clampPos boardX boardY p.pos }) := by
  constructor
  · intro boardX boardY pos
    obtain ⟨p0, p1⟩ := pos
    refine ⟨?_, ?_, ?_, ?_, ?_, ?_⟩ <;>
      · simp only [clampPos]
        intros
        split_ifs <;> simp_all [Prod.mk.injEq] <;> omega
  · intro boardX boardY g p ps
    cases hw : writeCell g (clampPos boardX boardY p.pos).2
        (clampPos boardX boardY p.pos).1 p.char <;>
      simp [displayPlayers, hw]

/-- Claim C3, witness: a position with only the row too large lands
exactly on maxRow, and the head player of a display pass carries the
clamped position. -/
theorem claim3_witness :
    ((2 : Int) > 1 ∧ clampPos 1 1 (0, 2) = (0, 1)) ∧
    ((displayPlayers 1 1 boardTwo.board [mkPlayer (0, 2)]).1).head?
      = some { mkPlayer (0, 2) with pos := clampPos 1 1 (mkPlayer (0, 2)).pos } := by
  exact ⟨⟨by decide, (claim3_amended.1 1 1 (0, 2)).1 (by decide)⟩,
    claim3_amended.2 1 1 boardTwo.board (mkPlayer (0, 2)) []⟩

/-- Claim C4, counterexample: the symbol x sits in both the up and
right key-sets of a player; resolution in the claimed order up, left,
down, right would move up (delta (0, -1)), but change_position moves
right (delta (1, 0)): the claimed check order is not the code order. -/
theorem claim4_cex :
    pyInStr "x" playerC4.up = true ∧ pyInStr "x" playerC4.right = true ∧
    (changePosition playerC4 "x").1.pos = (1, 0) ∧
    (claimC4apply playerC4 "x").1.pos = (0, -1) ∧
    changePosition playerC4 "x" ≠ claimC4apply playerC4 "x" := by
  refine ⟨rfl, rfl, rfl, rfl, by decide⟩

/-- Claim C4, amended: for every player and every input symbol, the
movement resolution checks the key-sets in the order left, right, up,
down, and the delta of the first matching direction is the one
applied (Ignored, result -1, when none matches). -/
theorem claim4_amended (p : PlayerV) (key : String) :
    changePosition p key = codeC4apply p key := by
  simp only [changePosition, codeC4apply, firstKeyMatch]
  split_ifs <;> rfl

/-- Claim C5: for every key not contained in any of the four key-sets,
change_player_position returns -1 (Ignored) and leaves the player
position unchanged, and the pending-update flag is set by every call
whatever the key. -/
theorem claim5_ignored_still_dirty (g : GameState) (p : PlayerV) (key : String)
    (hl : pyInStr key p.left = false) (hr : pyInStr key p.right = false)
    (hu : pyInStr key p.up = false) (hd : pyInStr key p.down = false) :
    changePlayerPosition g p key = ({ g with pending_update := true }, p, -1) ∧
    ∀ k : String, ((changePlayerPosition g p k).1).pending_update = true := by
  constructor
  · simp [changePlayerPosition, changePosition, hl, hr, hu, hd]
  · intro k
    simp [changePlayerPosition]

/-- Claim C5, witness: the key z is in none of the default key-sets;
the call returns -1, keeps the position, and sets the pending flag,
and a matching key w also sets the pending flag. -/
theorem claim5_witness :
    pyInStr "z" (mkPlayer (0, 0)).left = false ∧
    pyInStr "z" (mkPlayer (0, 0)).right = false ∧
    pyInStr "z" (mkPlayer (0, 0)).up = false ∧
    pyInStr "z" (mkPlayer (0, 0)).down = false ∧
    changePlayerPosition smartGame (mkPlayer (0, 0)) "z"
      = ({ smartGame with pending_update := true }, mkPlayer (0, 0), -1) ∧
    ((changePlayerPosition smartGame (mkPlayer (0, 0)) "w").1).pending_update = true := by
  have H := claim5_ignored_still_dirty smartGame (mkPlayer (0, 0)) "z"
    (by decide) (by decide) (by decide) (by decide)
  exact ⟨by decide, by decide, by decide, by decide, H.1, H.2 "w"⟩

/-- Claim C6: in smart-updating mode a completed loop iteration
redraws exactly when the pending-update flag was set at that
iteration, the flag is false right after the iteration, and a
following iteration with no dirty-marking call in between never
redraws again. -/
theorem claim6_smart_redraw (g : GameState) (hs : g.smart_updating = true) :
    ∀ (i : Nat) (r : Bool) (g2 : GameState), loopStep g i = some (r, g2) →
      r = g.pending_update ∧ g2.pending_update = false ∧
      ∀ (j : Nat) (r2 : Bool) (g3 : GameState), loopStep g2 j = some (r2, g3) → r2 = false := by
  intro i r g2 hstep
  have hs2 : ∀ (h : GameState), (updateAndDisplay h).1.smart_updating = h.smart_updating :=
    fun h => rfl
  simp only [loopStep, hs, if_true] at hstep
  cases hp : g.pending_update with
  | false =>
    rw [hp] at hstep
    simp at hstep
    obtain ⟨hr, hg⟩ := hstep
    subst hr; subst hg
    refine ⟨rfl, hp, ?_⟩
    intro j r2 g3 hstep2
    simp only [loopStep, hs, hp, if_true] at hstep2
    simp at hstep2
    exact hstep2.1
  | true =>
    rw [hp] at hstep
    simp only [if_true] at hstep
    cases hok : (updateAndDisplay g).2 with
    | false => rw [hok] at hstep; simp at hstep
    | true =>
      rw [hok] at hstep
      simp at hstep
      obtain ⟨hr, hg⟩ := hstep
      subst hr; subst hg
      refine ⟨rfl, rfl, ?_⟩
      intro j r2 g3 hstep2
      simp only [loopStep] at hstep2
      rw [hs2 g] at hstep2
      simp only [hs, if_true] at hstep2
      simp at hstep2
      exact hstep2.1

/-- Claim C6, witness: a smart game with the flag set redraws on a
completed iteration and ends it with the flag cleared. -/
theorem claim6_witness :
    smartGame.smart_updating = true ∧
    true = smartGame.pending_update ∧
    ({ smartGame with pending_update := false } : GameState).pending_update = false := by
  have H := claim6_smart_redraw smartGame rfl 0 true { smartGame with pending_update := false }
    (by decide)
  exact ⟨rfl, H.1, H.2.1⟩

/-- Claim C8, counterexample: a grid whose rows have lengths 2 and 1
is not rectangular, yet _Board construction succeeds (no exception):
the constructor performs no rectangularity check. -/
theorem claim8_cex :
    ([["a", "b"], ["c"]] : List (List String)).map List.length = [2, 1] ∧
    (mkBoardV [["a", "b"], ["c"]]).isSome = true := by
  exact ⟨rfl, rfl⟩

/-- Claim C8, amended: the Board constructor accepts every non-empty
grid, ragged rows included, without raising; construction fails only
on an empty grid, where reading row 0 raises IndexError. -/
theorem claim8_amended : ∀ b : List (List String), (mkBoardV b).isSome = !b.isEmpty := by
  intro b
  cases b <;> rfl

/-- In a non-smart, interval-updating state with interval 1, each loop
iteration makes the same redraw decision as the default every-frame
branch. -/
theorem loopStep_default_fst (g : GameState) (hs : g.smart_updating = false)
    (hm : g.interval_updating = false) (i : Nat) :
    (loopStep g i).map Prod.fst = (if (updateAndDisplay g).2 then some true else none) := by
  simp only [loopStep, hs, hm]
  cases h : (updateAndDisplay g).2 <;> simp [h]

theorem loopStep_interval1_fst (g : GameState) (hs : g.smart_updating = false)
    (hm : g.interval_updating = true) (hi : g.interval = 1) (i : Nat) :
    (loopStep g i).map Prod.fst = (if (updateAndDisplay g).2 then some true else none) := by
  simp only [loopStep, hs, hm, hi, Nat.mod_one]
  cases h : (updateAndDisplay g).2 <;> simp [h]

theorem loopStep_interval_one (g : GameState) (hs : g.smart_updating = false)
    (hm : g.interval_updating = true) (hi : g.interval = 1) (i : Nat) :
    (loopStep g i).map Prod.fst
      = (loopStep { g with interval_updating := false } i).map Prod.fst := by
  rw [loopStep_interval1_fst g hs hm hi i,
    loopStep_default_fst { g with interval_updating := false } hs rfl i]
  rfl

/-- In a smart state with the pending flag set, a loop iteration runs
the redraw and clears the flag on success. -/
theorem loopStep_smart_pending (g : GameState) (hs : g.smart_updating = true)
    (hp : g.pending_update = true) (i : Nat) :
    loopStep g i
      = (if (updateAndDisplay g).2 then
          some (true, { (updateAndDisplay g).1 with pending_update := false })
        else none) ∧
    (loopStep g i).all Prod.fst = true := by
  constructor
  · simp [loopStep, hs, hp]
  · simp only [loopStep, hs, hp]
    cases (updateAndDisplay g).2 <;> simp

/-- Claim C9: a game configured with interval updating and not smart
updating has interval fixed to 1 by the setup call (which has no
parameter for it), the redraw condition iteration mod interval == 0
holds at every iteration, and each iteration makes the same redraw
decision as the default every-frame mode. -/
theorem claim9_interval_every_frame (g : GameState) (pre post onKey : Option Unit)
    (d : Int) :
    (initGame g false true pre post onKey d).interval = 1 ∧
    (∀ i : Nat, (i % (initGame g false true pre post onKey d).interval == 0) = true) ∧
    ∀ i : Nat,
      (loopStep (initGame g false true pre post onKey d) i).map Prod.fst
        = (loopStep { initGame g false true pre post onKey d with
            interval_updating := false } i).map Prod.fst := by
  exact ⟨rfl, fun i => by simp [initGame, Nat.mod_one],
    fun i => loopStep_interval_one (initGame g false true pre post onKey d) rfl rfl rfl i⟩

/-- Claim C10: the setup call sets the pending-update flag to True, so
a game started in smart-updating mode takes the redraw path on its
first loop iteration even though no movement or dirty-marking call has
happened; a completed first iteration always reports a redraw. -/
theorem claim10_first_iteration_redraws (g : GameState) (intervalMode : Bool)
    (pre post onKey : Option Unit) (d : Int) :
    (initGame g true intervalMode pre post onKey d).pending_update = true ∧
    loopStep (initGame g true intervalMode pre post onKey d) 0
      = (if (updateAndDisplay (initGame g true intervalMode pre post onKey d)).2 then
          some (true, { (updateAndDisplay (initGame g true intervalMode pre post onKey d)).1
            with pending_update := false })
        else none) ∧
    (loopStep (initGame g true intervalMode pre post onKey d) 0).all Prod.fst = true := by
  have H := loopStep_smart_pending (initGame g true intervalMode pre post onKey d) rfl rfl 0
  exact ⟨rfl, H.1, H.2⟩

namespace HeapModel

/-- Reading a reference below the old heap length is unaffected by
appended cells. -/
theorem getRow_append {h : HeapT} {r : Nat} (hr : r < h.length) (xs : HeapT) :
    getRow (h ++ xs) r = getRow h r := by
  unfold getRow
  rw [List.getElem?_append_left hr]

/-- Reading a grid of valid references is unaffected by appended cells. -/
theorem readG_append {h : HeapT} {g : GridRefs} (hv : ∀ r ∈ g, r < h.length) (xs : HeapT) :
    readG (h ++ xs) g = readG h g := by
  unfold readG
  exact List.map_congr_left fun r hr => getRow_append (hv r hr) xs

theorem readG_length (h : HeapT) (g : GridRefs) : (readG h g).length = g.length := by
  simp [readG]

theorem deepcopyG_fst_length (h : HeapT) (g : GridRefs) :
    (deepcopyG h g).1.length = h.length + g.length := by
  simp [deepcopyG, readG]

/-- A deep copy reads back as the grid it copied. -/
theorem readG_deepcopy (h : HeapT) (g : GridRefs) :
    readG (deepcopyG h g).1 (deepcopyG h g).2 = readG h g := by
  apply List.ext_getElem
  · simp [readG, deepcopyG]
  · intro i h1 h2
    simp only [readG, deepcopyG, List.getElem_map, List.getElem_range, getRow]
    rw [List.getElem?_append_right (by omega)]
    have hlen : h.length + i - h.length = i := by omega
    rw [hlen, List.getElem?_map]
    have hig : i < g.length := by simpa [readG] using h2
    rw [List.getElem?_eq_getElem hig]
    simp [getRow]

/-- The references returned by a deep copy are exactly the fresh cells. -/
theorem deepcopy_refs_bound (h : HeapT) (g : GridRefs) :
    ∀ r ∈ (deepcopyG h g).2, h.length ≤ r ∧ r < h.length + g.length := by
  intro r hr
  simp only [deepcopyG, List.mem_map, List.mem_range] at hr
  obtain ⟨i, hi, rfl⟩ := hr
  omega

/-- Mutating a cell none of the grid references touches does not
change what the grid reads back as. -/
theorem readG_set_out {h : HeapT} {g : GridRefs} {i : Nat}
    (hne : ∀ r ∈ g, r ≠ i) (v : RowV) :
    readG (setRow h i v) g = readG h g := by
  unfold readG setRow
  refine List.map_congr_left fun r hr => ?_
  unfold getRow
  rw [List.getElem?_set_ne (Ne.symm (hne r hr))]

end HeapModel

open HeapModel in
/-- Claim C7: for every board built from a non-empty grid of valid row
references, rendering the grid returned by reset (_original, the deep
copy of the baseline) yields exactly the original text of the board,
and the returned grid never aliases the baseline: overwriting any row
of a returned grid leaves the result of every future reset unchanged. -/
theorem claim7_reset_roundtrip_no_alias (h : HeapModel.HeapT) (b : HeapModel.GridRefs)
    (hne : b ≠ []) (hv : ∀ r ∈ b, r < h.length) :
    (mkBoardH h b).isSome = true ∧
    ∀ h1 bd, mkBoardH h b = some (h1, bd) →
      renderH (originalG h1 bd).1 (originalG h1 bd).2 = renderH h b ∧
      ∀ ref ∈ (originalG h1 bd).2, ∀ v : RowV,
        renderH (originalG (setRow (originalG h1 bd).1 ref v) bd).1
            (originalG (setRow (originalG h1 bd).1 ref v) bd).2
          = renderH h b := by
  cases b with
  | nil => exact absurd rfl hne
  | cons r0 rest =>
    refine ⟨rfl, ?_⟩
    intro h1 bd heq
    simp only [mkBoardH, Option.some.injEq, Prod.mk.injEq] at heq
    obtain ⟨hA, hB⟩ := heq
    subst hA
    subst hB
    have hb_len := HeapModel.deepcopyG_fst_length h (r0 :: rest)
    have hcb := HeapModel.deepcopy_refs_bound h (r0 :: rest)
    have hcv : ∀ r ∈ (deepcopyG h (r0 :: rest)).2, r < (deepcopyG h (r0 :: rest)).1.length := by
      intro r hr
      have := hcb r hr
      omega
    have hread1 : readG (deepcopyG h (r0 :: rest)).1 (deepcopyG h (r0 :: rest)).2
        = readG h (r0 :: rest) := HeapModel.readG_deepcopy h (r0 :: rest)
    constructor
    · simp only [renderH, originalG]
      rw [HeapModel.readG_deepcopy, hread1]
    · intro ref href v
      simp only [originalG] at href ⊢
      have hrefge : (deepcopyG h (r0 :: rest)).1.length ≤ ref := by
        have := HeapModel.deepcopy_refs_bound (deepcopyG h (r0 :: rest)).1
          (deepcopyG h (r0 :: rest)).2 ref href
        omega
      simp only [renderH]
      rw [HeapModel.readG_deepcopy]
      have hset : readG (setRow (deepcopyG (deepcopyG h (r0 :: rest)).1
            (deepcopyG h (r0 :: rest)).2).1 ref v) (deepcopyG h (r0 :: rest)).2
          = readG (deepcopyG (deepcopyG h (r0 :: rest)).1
            (deepcopyG h (r0 :: rest)).2).1 (deepcopyG h (r0 :: rest)).2 := by
        apply HeapModel.readG_set_out
        intro r hr
        have h1r := hcv r hr
        omega
      rw [hset]
      have happ : readG (deepcopyG (deepcopyG h (r0 :: rest)).1
            (deepcopyG h (r0 :: rest)).2).1 (deepcopyG h (r0 :: rest)).2
          = readG (deepcopyG h (r0 :: rest)).1 (deepcopyG h (r0 :: rest)).2 := by
        show readG ((deepcopyG h (r0 :: rest)).1
            ++ readG (deepcopyG h (r0 :: rest)).1 (deepcopyG h (r0 :: rest)).2)
            (deepcopyG h (r0 :: rest)).2 = _
        exact HeapModel.readG_append hcv _
      rw [happ, hread1]

open HeapModel in
/-- Claim C7, witness: a one-cell board; reset renders as the original
text, and after overwriting the row of a returned reset grid the next
reset still renders the original text. -/
theorem claim7_witness :
    (mkBoardH [["a"]] [0]).isSome = true ∧
    renderH (originalG [["a"], ["a"]]
        { boardRefs := [0], x := 0, y := 0, copyRefs := [1] }).1
      (originalG [["a"], ["a"]]
        { boardRefs := [0], x := 0, y := 0, copyRefs := [1] }).2 = "a\n" ∧
    renderH (originalG (setRow (originalG [["a"], ["a"]]
          { boardRefs := [0], x := 0, y := 0, copyRefs := [1] }).1 2 ["z"])
        { boardRefs := [0], x := 0, y := 0, copyRefs := [1] }).1
      (originalG (setRow (originalG [["a"], ["a"]]
          { boardRefs := [0], x := 0, y := 0, copyRefs := [1] }).1 2 ["z"])
        { boardRefs := [0], x := 0, y := 0, copyRefs := [1] }).2 = "a\n" := by
  have H := claim7_reset_roundtrip_no_alias [["a"]] [0] (by decide) (by decide)
  have H2 := H.2 [["a"], ["a"]] { boardRefs := [0], x := 0, y := 0, copyRefs := [1] } rfl
  exact ⟨H.1, H2.1.trans (by decide), (H2.2 2 (by decide) ["z"]).trans (by decide)⟩
